import Mathlib

/-!
Verification of the expression-template evaluation core of the ETL tensor
library, shallowly embedded in Lean 4.

The element type of containers and scalars is modelled by `ℚ` (exact
arithmetic): the algebraic rewrite rules of the optimizer (`optimizer.hpp`)
and the evaluation semantics are expressed over it, so that equalities are
decidable and exact.

Contents:
* expression-node model and evaluation (`Expr`, `eval`, `evalInto`);
* the optimizer (`is_optimizable`, `is_optimizable_deep`, `transform`,
  `optimize_step`, `optimized_forward`) translated from
  `include/etl/optimizer.hpp`;
* size-validation checks from `include/etl/checks.hpp`;
* implementation selectors for gemv / sum / dot from
  `include/etl/expr/gemv_expr.hpp`, `include/etl/impl/sum.hpp`,
  `include/etl/impl/dot.hpp`;
* `make_temporary` from `include/etl/temporary.hpp`;
* coherence-protocol traces of the kernels in `include/etl/impl/vec/gemm.hpp`,
  `include/etl/impl/cublas/outer.hpp` and `include/etl/impl/cublas/transpose.hpp`;
* the transpose dispatcher from `include/etl/impl/transpose.hpp`.
-/

namespace ETL

/-- Unary operation kinds of a `unary_expr` node. `plus` is the identity
(`plus_unary_op`), `neg` is `minus_unary_op`. -/
inductive UnaryOp where
  | plus
  | neg
deriving DecidableEq, Repr

/-- Binary operation kinds of a `binary_expr` node: `plus_binary_op`,
`minus_binary_op`, `mul_binary_op`, `div_binary_op`. -/
inductive BinOp where
  | add
  | sub
  | mul
  | div
deriving DecidableEq, Repr

/-- Semantics of a unary operation on one element. -/
def UnaryOp.eval : UnaryOp → ℚ → ℚ
  | .plus, x => x
  | .neg, x => -x

/-- Semantics of a binary operation on one element. -/
def BinOp.eval : BinOp → ℚ → ℚ → ℚ
  | .add, x, y => x + y
  | .sub, x, y => x - y
  | .mul, x, y => x * y
  | .div, x, y => x / y

/-- Expression-node model: a value leaf (concrete container contents), a
broadcast scalar (`etl::scalar`), a `unary_expr` and a `binary_expr`. -/
inductive Expr where
  | leaf (data : List ℚ)
  | scal (v : ℚ)
  | unary (op : UnaryOp) (e : Expr)
  | binary (op : BinOp) (l r : Expr)
deriving DecidableEq, Repr

namespace Expr

/-- Whether the node is an `etl::scalar` (used to mirror the template
specialization dispatch of the optimizer). -/
def isScal : Expr → Bool
  | .scal _ => true
  | _ => false

/-- Whether the node is a value leaf with direct memory access. -/
def isLeaf : Expr → Bool
  | .leaf _ => true
  | _ => false

/-- Number of nodes of the expression tree. -/
def nodes : Expr → Nat
  | .leaf _ => 1
  | .scal _ => 1
  | .unary _ e => e.nodes + 1
  | .binary _ l r => l.nodes + r.nodes + 1

theorem nodes_pos (e : Expr) : 0 < e.nodes := by
  cases e <;> simp [nodes]

end Expr

/-- Element `i` of the lazily evaluated expression: a leaf reads its
container, a scalar broadcasts its value, operator nodes combine the
same-indexed elements of their operands. -/
def eval : Expr → Nat → ℚ
  | .leaf d, i => d.getD i 0
  | .scal v, _ => v
  | .unary op e, i => op.eval (eval e i)
  | .binary op l r, i => op.eval (eval l i) (eval r i)

/-- The contents of a destination of size `n` after evaluating the
expression into it. -/
def evalInto (e : Expr) (n : Nat) : List ℚ :=
  (List.range n).map (eval e)

/-- `optimizable<Expr>::is`, translated from `optimizer.hpp`.  The four
`match` arms mirror the four template specializations (unary, scalar-scalar,
scalar-lhs, scalar-rhs); the default traits return `false`. -/
def is_optimizable : Expr → Bool
  | .unary .plus _ => true
  | .unary _ _ => false
  | .binary _ (.scal _) (.scal _) => true
  | .binary op (.scal a) _ =>
      decide ((a = 1 ∧ op = .mul) ∨ (a = 0 ∧ op = .mul) ∨
              (a = 0 ∧ op = .add) ∨ (a = 0 ∧ op = .div))
  | .binary op _ (.scal b) =>
      decide ((b = 1 ∧ op = .mul) ∨ (b = 0 ∧ op = .mul) ∨
              (b = 0 ∧ op = .add) ∨ (b = 0 ∧ op = .sub) ∨ (b = 1 ∧ op = .div))
  | _ => false

/-- `optimizable<Expr>::is_deep`, translated from `optimizer.hpp`: the node
itself is optimizable or one of its sub-expressions is. -/
def is_optimizable_deep : Expr → Bool
  | .unary op e => is_optimizable (.unary op e) || is_optimizable_deep e
  | .binary op l r =>
      is_optimizable (.binary op l r) || is_optimizable_deep l || is_optimizable_deep r
  | _ => false

/-- `transformer<Expr>::transform`, translated from `optimizer.hpp`, in
direct style: the value passed to `parent_builder` is returned.  On a node
for which no transformer branch fires (which cannot happen when
`is_optimizable` holds) the node is returned unchanged. -/
def transform : Expr → Expr
  | .unary .plus e => e
  | .binary op (.scal a) (.scal b) => .scal (op.eval a b)
  | .binary op (.scal a) r =>
      if a = 1 ∧ op = .mul then r
      else if a = 0 ∧ op = .mul then .scal a
      else if a = 0 ∧ op = .add then r
      else if a = 0 ∧ op = .div then .scal a
      else .binary op (.scal a) r
  | .binary op l (.scal b) =>
      if b = 1 ∧ op = .mul then l
      else if b = 0 ∧ op = .mul then .scal b
      else if b = 0 ∧ op = .add then l
      else if b = 0 ∧ op = .sub then l
      else if b = 1 ∧ op = .div then l
      else .binary op l (.scal b)
  | e => e

/-- `optimizer<Expr>::apply`, translated from `optimizer.hpp` in direct
style (each continuation `parent_builder` is invoked at most once, with a
rebuilt node, so the CPS code collapses to a function returning the rebuilt
tree): transform the node if it is optimizable, otherwise recurse into the
first deeply-optimizable operand, otherwise return the node unchanged. -/
def optimize_step : Expr → Expr
  | .unary op e =>
      if is_optimizable (.unary op e) then transform (.unary op e)
      else if is_optimizable_deep e then .unary op (optimize_step e)
      else .unary op e
  | .binary op l r =>
      if is_optimizable (.binary op l r) then transform (.binary op l r)
      else if is_optimizable_deep l then .binary op (optimize_step l) r
      else if is_optimizable_deep r then .binary op l (optimize_step r)
      else .binary op l r
  | e => e

/-- Every firing transformer strictly shrinks the tree. -/
theorem nodes_transform_lt (e : Expr) (h : is_optimizable e = true) :
    (transform e).nodes < e.nodes := by
  match e with
  | .leaf _ => simp [is_optimizable] at h
  | .scal _ => simp [is_optimizable] at h
  | .unary op v =>
    cases op with
    | plus => simp [transform, Expr.nodes]
    | neg => simp [is_optimizable] at h
  | .binary op (.scal a) (.scal b) => norm_num [transform, Expr.nodes]
  | .binary op (.scal a) (.leaf d)
  | .binary op (.scal a) (.unary _ _)
  | .binary op (.scal a) (.binary _ _ _) =>
    simp only [is_optimizable, decide_eq_true_eq] at h
    rcases h with ⟨rfl, rfl⟩ | ⟨rfl, rfl⟩ | ⟨rfl, rfl⟩ | ⟨rfl, rfl⟩ <;>
      norm_num [transform, Expr.nodes] <;> omega
  | .binary op (.leaf d) (.scal b)
  | .binary op (.unary _ _) (.scal b)
  | .binary op (.binary _ _ _) (.scal b) =>
    simp only [is_optimizable, decide_eq_true_eq] at h
    rcases h with ⟨rfl, rfl⟩ | ⟨rfl, rfl⟩ | ⟨rfl, rfl⟩ | ⟨rfl, rfl⟩ | ⟨rfl, rfl⟩ <;>
      norm_num [transform, Expr.nodes] <;> omega
  | .binary op (.leaf _) (.leaf _)
  | .binary op (.leaf _) (.unary _ _)
  | .binary op (.leaf _) (.binary _ _ _)
  | .binary op (.unary _ _) (.leaf _)
  | .binary op (.unary _ _) (.unary _ _)
  | .binary op (.unary _ _) (.binary _ _ _)
  | .binary op (.binary _ _ _) (.leaf _)
  | .binary op (.binary _ _ _) (.unary _ _)
  | .binary op (.binary _ _ _) (.binary _ _ _) =>
    simp [is_optimizable] at h

/-- One optimizer descent strictly shrinks a deeply-optimizable tree. -/
theorem nodes_optimize_step_lt (e : Expr) (h : is_optimizable_deep e = true) :
    (optimize_step e).nodes < e.nodes := by
  induction e with
  | leaf d => simp [is_optimizable_deep] at h
  | scal v => simp [is_optimizable_deep] at h
  | unary op v ih =>
    simp only [optimize_step]
    split
    · exact nodes_transform_lt _ (by assumption)
    · split
      · have := ih (by assumption)
        simp [Expr.nodes]
        omega
      · rename_i h1 h2
        simp [is_optimizable_deep, h1, h2] at h
  | binary op l r ihl ihr =>
    simp only [optimize_step]
    split
    · exact nodes_transform_lt _ (by assumption)
    · split
      · have := ihl (by assumption)
        simp [Expr.nodes]
        omega
      · split
        · have := ihr (by assumption)
          simp [Expr.nodes]
          omega
        · rename_i h1 h2 h3
          simp [is_optimizable_deep, h1, h2, h3] at h

/-- `optimized_forward`, translated from `optimizer.hpp`: as long as the
tree still contains an optimizable sub-expression, run the optimizer and
recurse on the rebuilt tree; the fully processed tree is what the `result`
functor (the evaluator) receives. -/
def optimized_forward (e : Expr) : Expr :=
  if h : is_optimizable_deep e = true then
    optimized_forward (optimize_step e)
  else
    e
termination_by e.nodes
decreasing_by exact nodes_optimize_step_lt e h

/-- Unfolding lemma: a deeply-optimizable tree is optimized and re-forwarded. -/
theorem optimized_forward_step {e : Expr} (h : is_optimizable_deep e = true) :
    optimized_forward e = optimized_forward (optimize_step e) := by
  rw [optimized_forward, dif_pos h]

/-- Unfolding lemma: a tree with no optimizable sub-expression is forwarded
unchanged. -/
theorem optimized_forward_done {e : Expr} (h : is_optimizable_deep e = false) :
    optimized_forward e = e := by
  rw [optimized_forward, dif_neg (by simp [h])]

/-- A firing transformer preserves the value of every element. -/
theorem eval_transform (e : Expr) (h : is_optimizable e = true) (i : Nat) :
    eval (transform e) i = eval e i := by
  match e with
  | .leaf _ => simp [is_optimizable] at h
  | .scal _ => simp [is_optimizable] at h
  | .unary op v =>
    cases op with
    | plus => simp [transform, eval, UnaryOp.eval]
    | neg => simp [is_optimizable] at h
  | .binary op (.scal a) (.scal b) => cases op <;> simp [transform, eval, BinOp.eval]
  | .binary op (.scal a) (.leaf _)
  | .binary op (.scal a) (.unary _ _)
  | .binary op (.scal a) (.binary _ _ _) =>
    simp only [is_optimizable, decide_eq_true_eq] at h
    rcases h with ⟨rfl, rfl⟩ | ⟨rfl, rfl⟩ | ⟨rfl, rfl⟩ | ⟨rfl, rfl⟩ <;>
      norm_num [transform, eval, BinOp.eval]
  | .binary op (.leaf _) (.scal b)
  | .binary op (.unary _ _) (.scal b)
  | .binary op (.binary _ _ _) (.scal b) =>
    simp only [is_optimizable, decide_eq_true_eq] at h
    rcases h with ⟨rfl, rfl⟩ | ⟨rfl, rfl⟩ | ⟨rfl, rfl⟩ | ⟨rfl, rfl⟩ | ⟨rfl, rfl⟩ <;>
      norm_num [transform, eval, BinOp.eval]
  | .binary op (.leaf _) (.leaf _)
  | .binary op (.leaf _) (.unary _ _)
  | .binary op (.leaf _) (.binary _ _ _)
  | .binary op (.unary _ _) (.leaf _)
  | .binary op (.unary _ _) (.unary _ _)
  | .binary op (.unary _ _) (.binary _ _ _)
  | .binary op (.binary _ _ _) (.leaf _)
  | .binary op (.binary _ _ _) (.unary _ _)
  | .binary op (.binary _ _ _) (.binary _ _ _) =>
    simp [is_optimizable] at h

/-- One optimizer descent preserves the value of every element. -/
theorem eval_optimize_step (e : Expr) (i : Nat) :
    eval (optimize_step e) i = eval e i := by
  induction e with
  | leaf d => rfl
  | scal v => rfl
  | unary op v ih =>
    simp only [optimize_step]
    split
    · exact eval_transform _ (by assumption) i
    · split
      · simp [eval, ih]
      · rfl
  | binary op l r ihl ihr =>
    simp only [optimize_step]
    split
    · exact eval_transform _ (by assumption) i
    · split
      · simp [eval, ihl]
      · split
        · simp [eval, ihr]
        · rfl

/-- The whole optimization pass preserves the value of every element. -/
theorem eval_optimized_forward (e : Expr) (i : Nat) :
    eval (optimized_forward e) i = eval e i := by
  by_cases h : is_optimizable_deep e = true
  · rw [optimized_forward_step h, eval_optimized_forward (optimize_step e) i,
        eval_optimize_step e i]
  · rw [optimized_forward_done (by simpa using h)]
termination_by e.nodes
decreasing_by exact nodes_optimize_step_lt e h

/-- C1.  For every expression `e` and every destination of matching size `n`,
evaluating the tree built by the optimization pass (identity elimination and
scalar folding, as run by `optimized_forward` before evaluation) into the
destination produces exactly the same destination contents as evaluating `e`
itself. -/
theorem optimizer_equivalence (e : Expr) (n : Nat) :
    evalInto (optimized_forward e) n = evalInto e n := by
  have hfun : eval (optimized_forward e) = eval e := funext (eval_optimized_forward e)
  unfold evalInto
  rw [hfun]

/-- C5.  The optimizer implements exactly the stated algebraic rewrite rules:
binary operations of two scalar constants are folded for `+`, `-`, `*`, `/`;
`scalar(1)*x`, `scalar(0)+x`, `x*scalar(1)`, `x+scalar(0)`, `x-scalar(0)` and
`x/scalar(1)` are rewritten to `x`; `scalar(0)*x`, `x*scalar(0)` and
`scalar(0)/x` are rewritten to the zero scalar; and a binary node is
optimizable only when it has one of the listed shapes. -/
theorem optimizer_rewrite_rules :
    (∀ a b : ℚ, optimize_step (.binary .add (.scal a) (.scal b)) = .scal (a + b)) ∧
    (∀ a b : ℚ, optimize_step (.binary .sub (.scal a) (.scal b)) = .scal (a - b)) ∧
    (∀ a b : ℚ, optimize_step (.binary .mul (.scal a) (.scal b)) = .scal (a * b)) ∧
    (∀ a b : ℚ, optimize_step (.binary .div (.scal a) (.scal b)) = .scal (a / b)) ∧
    (∀ x : Expr, optimize_step (.binary .mul (.scal 1) x) = x) ∧
    (∀ x : Expr, optimize_step (.binary .mul (.scal 0) x) = .scal 0) ∧
    (∀ x : Expr, optimize_step (.binary .add (.scal 0) x) = x) ∧
    (∀ x : Expr, optimize_step (.binary .div (.scal 0) x) = .scal 0) ∧
    (∀ x : Expr, optimize_step (.binary .mul x (.scal 1)) = x) ∧
    (∀ x : Expr, optimize_step (.binary .mul x (.scal 0)) = .scal 0) ∧
    (∀ x : Expr, optimize_step (.binary .add x (.scal 0)) = x) ∧
    (∀ x : Expr, optimize_step (.binary .sub x (.scal 0)) = x) ∧
    (∀ x : Expr, optimize_step (.binary .div x (.scal 1)) = x) ∧
    (∀ (op : BinOp) (l r : Expr), is_optimizable (.binary op l r) = true ↔
      ((∃ a b, l = .scal a ∧ r = .scal b) ∨
       (∃ a, l = .scal a ∧
         ((a = 1 ∧ op = .mul) ∨ (a = 0 ∧ op = .mul) ∨
          (a = 0 ∧ op = .add) ∨ (a = 0 ∧ op = .div))) ∨
       (∃ b, r = .scal b ∧
         ((b = 1 ∧ op = .mul) ∨ (b = 0 ∧ op = .mul) ∨
          (b = 0 ∧ op = .add) ∨ (b = 0 ∧ op = .sub) ∨ (b = 1 ∧ op = .div))))) := by
  refine ⟨?_, ?_, ?_, ?_, ?_, ?_, ?_, ?_, ?_, ?_, ?_, ?_, ?_, ?_⟩
  · intro a b; simp [optimize_step, is_optimizable, transform, BinOp.eval]
  · intro a b; simp [optimize_step, is_optimizable, transform, BinOp.eval]
  · intro a b; simp [optimize_step, is_optimizable, transform, BinOp.eval]
  · intro a b; simp [optimize_step, is_optimizable, transform, BinOp.eval]
  · intro x; cases x <;> norm_num [optimize_step, is_optimizable, transform, BinOp.eval] <;>
      intros <;> simp_all
  · intro x; cases x <;> norm_num [optimize_step, is_optimizable, transform, BinOp.eval] <;>
      intros <;> simp_all
  · intro x; cases x <;> norm_num [optimize_step, is_optimizable, transform, BinOp.eval] <;>
      intros <;> simp_all
  · intro x; cases x <;> norm_num [optimize_step, is_optimizable, transform, BinOp.eval] <;>
      intros <;> simp_all
  · intro x; cases x <;> norm_num [optimize_step, is_optimizable, transform, BinOp.eval] <;>
      intros <;> simp_all
  · intro x; cases x <;> norm_num [optimize_step, is_optimizable, transform, BinOp.eval] <;>
      intros <;> simp_all
  · intro x; cases x <;> norm_num [optimize_step, is_optimizable, transform, BinOp.eval] <;>
      intros <;> simp_all
  · intro x; cases x <;> norm_num [optimize_step, is_optimizable, transform, BinOp.eval] <;>
      intros <;> simp_all
  · intro x; cases x <;> norm_num [optimize_step, is_optimizable, transform, BinOp.eval] <;>
      intros <;> simp_all
  · intro op l r
    cases l <;> cases r <;> simp [is_optimizable] <;> tauto

/-- The expression `scalar(1) * leaf + scalar(1) * leaf`, whose two reducible
subtrees sit in different branches, so that a single optimizer descent can
rewrite only one of them. -/
def ex_nested : Expr :=
  .binary .add (.binary .mul (.scal 1) (.leaf [2]))
               (.binary .mul (.scal 1) (.leaf [3]))

/-- C6 counterexample.  One optimizer descent over `ex_nested` rewrites only
the left subtree and leaves a still-optimizable tree, but `optimized_forward`
does not hand that tree to evaluation: it re-runs the optimizer and delivers
the fully reduced tree, on which no optimization opportunity remains. -/
theorem one_pass_counterexample :
    optimize_step ex_nested =
      .binary .add (.leaf [2]) (.binary .mul (.scal 1) (.leaf [3])) ∧
    is_optimizable_deep (optimize_step ex_nested) = true ∧
    optimized_forward ex_nested = .binary .add (.leaf [2]) (.leaf [3]) ∧
    optimized_forward ex_nested ≠ optimize_step ex_nested ∧
    is_optimizable_deep (optimized_forward ex_nested) = false := by
  have s1 : optimize_step ex_nested =
      .binary .add (.leaf [2]) (.binary .mul (.scal 1) (.leaf [3])) := by decide
  have s2 : optimize_step (.binary .add (.leaf [2])
      (.binary .mul (.scal 1) (.leaf [3]))) = .binary .add (.leaf [2]) (.leaf [3]) := by
    decide
  have d0 : is_optimizable_deep ex_nested = true := by decide
  have d1 : is_optimizable_deep (.binary .add (.leaf [2])
      (.binary .mul (.scal 1) (.leaf [3]))) = true := by decide
  have d2 : is_optimizable_deep (.binary .add (.leaf (2 :: [])) (.leaf [3])) = false := by
    decide
  have hfwd : optimized_forward ex_nested = .binary .add (.leaf [2]) (.leaf [3]) := by
    rw [optimized_forward_step d0, s1, optimized_forward_step d1, s2,
        optimized_forward_done d2]
  refine ⟨s1, by rw [s1]; exact d1, hfwd, ?_, by rw [hfwd]; exact d2⟩
  rw [hfwd, s1]
  decide

/-- C6 amended.  The optimizer applies one optimization opportunity per
descent, but `optimized_forward` re-invokes it until no deeply-optimizable
sub-expression remains: the tree handed to evaluation is the fully reduced
fixed point. -/
theorem optimized_forward_fixed_point (e : Expr) :
    is_optimizable_deep (optimized_forward e) = false := by
  by_cases h : is_optimizable_deep e = true
  · rw [optimized_forward_step h]
    exact optimized_forward_fixed_point (optimize_step e)
  · rw [optimized_forward_done (by simpa using h)]
    simpa using h
termination_by e.nodes
decreasing_by exact nodes_optimize_step_lt e h

/-! ### Size validation (`include/etl/checks.hpp`) -/

/-- Outcome of a validation: success, a failing runtime `cpp_assert`, or a
compile-time `static_assert` rejection. -/
inductive CheckResult where
  | ok
  | assertFail
  | staticAssertFail
deriving DecidableEq, Repr

/-- The traits of one operand consulted by `validate_expression_impl`:
`etl_traits<E>::is_generator`, `etl_traits<E>::is_fast` and `size(e)` (for a
fast operand `size()` is the compile-time constant, numerically the same). -/
structure Operand where
  is_generator : Bool
  is_fast : Bool
  size : Nat
deriving DecidableEq, Repr

/-- `validate_expression_impl`, translated from `checks.hpp`: the three
SFINAE overloads collapse to this decision tree — any generator operand
skips the check; two fast operands are compared by `static_assert`;
otherwise the sizes are compared by a runtime `cpp_assert`. -/
def validate_expression_impl (lhs rhs : Operand) : CheckResult :=
  if lhs.is_generator || rhs.is_generator then .ok
  else if lhs.is_fast && rhs.is_fast then
    if lhs.size = rhs.size then .ok else .staticAssertFail
  else
    if lhs.size = rhs.size then .ok else .assertFail

/-- C2.  Constructing a binary element-wise expression checks sizes exactly
when neither operand is a generator: a generator operand always passes with
no check; without generators the check succeeds iff the sizes agree; two
dynamic operands of different size fail the runtime assertion; two fast
(compile-time-sized) operands of different size are rejected by the static
assertion. -/
theorem binary_size_check (lhs rhs : Operand) :
    ((lhs.is_generator = true ∨ rhs.is_generator = true) →
      validate_expression_impl lhs rhs = .ok) ∧
    (lhs.is_generator = false → rhs.is_generator = false →
      (validate_expression_impl lhs rhs = .ok ↔ lhs.size = rhs.size)) ∧
    (lhs.is_generator = false → rhs.is_generator = false →
      lhs.is_fast = false → rhs.is_fast = false → lhs.size ≠ rhs.size →
      validate_expression_impl lhs rhs = .assertFail) ∧
    (lhs.is_generator = false → rhs.is_generator = false →
      lhs.is_fast = true → rhs.is_fast = true → lhs.size ≠ rhs.size →
      validate_expression_impl lhs rhs = .staticAssertFail) := by
  obtain ⟨g1, f1, n1⟩ := lhs
  obtain ⟨g2, f2, n2⟩ := rhs
  cases g1 <;> cases g2 <;> cases f1 <;> cases f2 <;>
    simp [validate_expression_impl] <;> split_ifs <;> simp_all

/-- C2 witness: the theorem instantiated at concrete operands for each of
the four behaviors. -/
theorem binary_size_check_witness :
    validate_expression_impl ⟨true, false, 3⟩ ⟨false, false, 5⟩ = .ok ∧
    validate_expression_impl ⟨false, false, 3⟩ ⟨false, false, 5⟩ = .assertFail ∧
    validate_expression_impl ⟨false, true, 3⟩ ⟨false, true, 5⟩ = .staticAssertFail ∧
    validate_expression_impl ⟨false, true, 4⟩ ⟨false, false, 4⟩ = .ok :=
  ⟨(binary_size_check _ _).1 (Or.inl rfl),
   (binary_size_check _ _).2.2.1 rfl rfl rfl rfl (by decide),
   (binary_size_check _ _).2.2.2 rfl rfl rfl rfl (by decide),
   ((binary_size_check _ _).2.1 rfl rfl).mpr rfl⟩

/-! ### Implementation selectors (`expr/gemv_expr.hpp`, `impl/sum.hpp`,
`impl/dot.hpp`) -/

/-- The `etl::gemm_impl` choices reachable from the gemv selector. -/
inductive GemmImpl where
  | STD
  | VEC
  | BLAS
  | CUBLAS
deriving DecidableEq, Repr, Fintype

/-- The `etl::sum_impl` choices. -/
inductive SumImpl where
  | STD
  | VEC
  | BLAS
  | CUBLAS
deriving DecidableEq, Repr, Fintype

/-- The `etl::dot_impl` choices. -/
inductive DotImpl where
  | STD
  | VEC
  | BLAS
  | CUBLAS
deriving DecidableEq, Repr, Fintype

/-- The static traits and backend flags consulted by
`gemv_expr::select_default_gemv_impl`. -/
structure GemvCfg where
  vec_enabled : Bool
  cblas_enabled : Bool
  cublas_enabled : Bool
  all_vectorizable : Bool
  homo : Bool
  is_complex_single : Bool
deriving DecidableEq, Repr, Fintype

/-- The static traits and backend flags consulted by
`select_default_sum_impl`. -/
structure SumCfg where
  cublas_enabled : Bool
  cblas_enabled : Bool
  vec_enabled : Bool
  all_dma : Bool
  all_floating : Bool
  all_vectorizable : Bool
deriving DecidableEq, Repr, Fintype

/-- The static traits and backend flags consulted by
`select_default_dot_impl`. -/
structure DotCfg where
  cblas_enabled : Bool
  cublas_enabled : Bool
  vec_enabled : Bool
  all_dma : Bool
  all_vectorizable : Bool
  same_intrinsic : Bool
deriving DecidableEq, Repr, Fintype

/-- The thread-local forced-selection state of one operation family
(`forced` flag plus the forced implementation), from `context.hpp`'s
`local_context()` selectors. -/
structure ForcedSelector (α : Type) where
  forced : Bool
  impl : α
deriving DecidableEq, Repr

/-- `select_default_gemv_impl` with the size-threshold condition already
evaluated to a Bool (`big` is `n1 * n2 > 1000 * 1000`). -/
def select_default_gemv_core (cfg : GemvCfg) (big : Bool) : GemmImpl :=
  if cfg.all_vectorizable && cfg.vec_enabled && cfg.homo then .VEC
  else if cfg.cblas_enabled && cfg.homo then .BLAS
  else if cfg.cublas_enabled && cfg.is_complex_single && big && cfg.homo then .CUBLAS
  else .STD

/-- `gemv_expr::select_default_gemv_impl`, translated from
`expr/gemv_expr.hpp`: VEC if vectorizable and homogeneous, else BLAS if
linked and homogeneous, else CUBLAS for large complex-single problems, else
the standard kernel. -/
def select_default_gemv_impl (cfg : GemvCfg) (n1 n2 : Nat) : GemmImpl :=
  select_default_gemv_core cfg (decide (1000 * 1000 < n1 * n2))

/-- `gemv_expr::select_gemv_impl`, translated from `expr/gemv_expr.hpp`.
The second component records whether the diagnostic message ("Forced
selection to ... but not possible for this expression") was emitted. -/
def select_gemv_impl (cfg : GemvCfg) (sel : ForcedSelector GemmImpl)
    (n1 n2 : Nat) : GemmImpl × Bool :=
  if sel.forced then
    match sel.impl with
    | .CUBLAS =>
        if !cfg.cublas_enabled || !cfg.homo then
          (select_default_gemv_impl cfg n1 n2, true)
        else (.CUBLAS, false)
    | .BLAS =>
        if !cfg.cblas_enabled || !cfg.homo then
          (select_default_gemv_impl cfg n1 n2, true)
        else (.BLAS, false)
    | .VEC =>
        if !cfg.vec_enabled || !cfg.all_vectorizable || !cfg.homo then
          (select_default_gemv_impl cfg n1 n2, true)
        else (.VEC, false)
    | .STD => (.STD, false)
  else (select_default_gemv_impl cfg n1 n2, false)

/-- `select_default_sum_impl`, translated from `impl/sum.hpp`: CUBLAS when
enabled, direct-memory, floating and the GPU copy is already up to date;
else VEC when vectorization applies; else the standard kernel.  BLAS is
never chosen by default. -/
def select_default_sum_impl (cfg : SumCfg) (gpu_up_to_date : Bool) : SumImpl :=
  if cfg.cublas_enabled && cfg.all_dma && cfg.all_floating && gpu_up_to_date then .CUBLAS
  else if cfg.vec_enabled && cfg.all_vectorizable then .VEC
  else .STD

/-- `select_sum_impl`, translated from `impl/sum.hpp`; the second component
records whether the diagnostic message was emitted. -/
def select_sum_impl (cfg : SumCfg) (sel : ForcedSelector SumImpl)
    (gpu_up_to_date : Bool) : SumImpl × Bool :=
  if sel.forced then
    match sel.impl with
    | .VEC =>
        if !cfg.vec_enabled || !cfg.all_vectorizable then
          (select_default_sum_impl cfg gpu_up_to_date, true)
        else (.VEC, false)
    | .CUBLAS =>
        if !cfg.cublas_enabled || !cfg.all_dma || !cfg.all_floating then
          (select_default_sum_impl cfg gpu_up_to_date, true)
        else (.CUBLAS, false)
    | .BLAS =>
        if !cfg.cblas_enabled || !cfg.all_dma || !cfg.all_floating then
          (select_default_sum_impl cfg gpu_up_to_date, true)
        else (.BLAS, false)
    | .STD => (.STD, false)
  else (select_default_sum_impl cfg gpu_up_to_date, false)

/-- `select_default_dot_impl`, translated from `impl/dot.hpp`: BLAS when the
operands have direct memory access and BLAS is linked; else VEC when
vectorization applies and both operands share the intrinsic type; else the
standard kernel.  CUBLAS is never chosen by default. -/
def select_default_dot_impl (cfg : DotCfg) : DotImpl :=
  if cfg.all_dma && cfg.cblas_enabled then .BLAS
  else if cfg.vec_enabled && cfg.all_vectorizable && cfg.same_intrinsic then .VEC
  else .STD

/-- `select_dot_impl`, translated from `impl/dot.hpp`; the second component
records whether the diagnostic message was emitted. -/
def select_dot_impl (cfg : DotCfg) (sel : ForcedSelector DotImpl) : DotImpl × Bool :=
  if sel.forced then
    match sel.impl with
    | .CUBLAS =>
        if !cfg.cublas_enabled || !cfg.all_dma then
          (select_default_dot_impl cfg, true)
        else (.CUBLAS, false)
    | .BLAS =>
        if !cfg.cblas_enabled || !cfg.all_dma then
          (select_default_dot_impl cfg, true)
        else (.BLAS, false)
    | .VEC =>
        if !cfg.vec_enabled || !cfg.all_vectorizable then
          (select_default_dot_impl cfg, true)
        else (.VEC, false)
    | .STD => (.STD, false)
  else (select_default_dot_impl cfg, false)

/-- A configuration in which every gemv backend is simultaneously eligible:
vectorization, BLAS and CUBLAS are all enabled, the operands are
homogeneous, vectorizable, of complex-single type. -/
def gemvAllOn : GemvCfg :=
  { vec_enabled := true, cblas_enabled := true, cublas_enabled := true,
    all_vectorizable := true, homo := true, is_complex_single := true }

/-- C3 counterexample.  At a 2000×2000 problem every gemv kernel is
eligible — the GPU kernel in particular (CUBLAS enabled, complex-single
operands, `n1*n2 > 1000*1000`) and the BLAS kernel (linked, homogeneous) —
yet the default selector returns the vectorized kernel, not the GPU one:
the claimed priority order GPU > BLAS > VEC does not hold. -/
theorem gemv_default_order_counterexample :
    select_default_gemv_impl gemvAllOn 2000 2000 = .VEC ∧
    GemmImpl.VEC ≠ GemmImpl.CUBLAS ∧
    (gemvAllOn.cublas_enabled = true ∧ gemvAllOn.is_complex_single = true ∧
      1000 * 1000 < 2000 * 2000) ∧
    (gemvAllOn.cblas_enabled = true ∧ gemvAllOn.homo = true) := by
  refine ⟨by decide, by decide, ⟨rfl, rfl, by norm_num⟩, rfl, rfl⟩

/-- C3 amended.  Each operation family has its own fixed priority chain:
gemv prefers VEC > BLAS > CUBLAS > STD; sum prefers CUBLAS > VEC > STD (BLAS
is never a default); dot prefers BLAS > VEC > STD (CUBLAS is never a
default); the portable standard kernel is the universal fallback of every
family. -/
theorem selector_priority_chains (g : GemvCfg) (n1 n2 : Nat) (s : SumCfg)
    (gpu : Bool) (d : DotCfg) :
    ((g.all_vectorizable && g.vec_enabled && g.homo) = true →
      select_default_gemv_impl g n1 n2 = .VEC) ∧
    ((g.all_vectorizable && g.vec_enabled && g.homo) = false →
      (g.cblas_enabled && g.homo) = true →
      select_default_gemv_impl g n1 n2 = .BLAS) ∧
    ((g.all_vectorizable && g.vec_enabled && g.homo) = false →
      (g.cblas_enabled && g.homo) = false →
      (g.cublas_enabled && g.is_complex_single &&
        decide (1000 * 1000 < n1 * n2) && g.homo) = true →
      select_default_gemv_impl g n1 n2 = .CUBLAS) ∧
    ((g.all_vectorizable && g.vec_enabled && g.homo) = false →
      (g.cblas_enabled && g.homo) = false →
      (g.cublas_enabled && g.is_complex_single &&
        decide (1000 * 1000 < n1 * n2) && g.homo) = false →
      select_default_gemv_impl g n1 n2 = .STD) ∧
    ((s.cublas_enabled && s.all_dma && s.all_floating && gpu) = true →
      select_default_sum_impl s gpu = .CUBLAS) ∧
    ((s.cublas_enabled && s.all_dma && s.all_floating && gpu) = false →
      (s.vec_enabled && s.all_vectorizable) = true →
      select_default_sum_impl s gpu = .VEC) ∧
    ((s.cublas_enabled && s.all_dma && s.all_floating && gpu) = false →
      (s.vec_enabled && s.all_vectorizable) = false →
      select_default_sum_impl s gpu = .STD) ∧
    ((d.all_dma && d.cblas_enabled) = true →
      select_default_dot_impl d = .BLAS) ∧
    ((d.all_dma && d.cblas_enabled) = false →
      (d.vec_enabled && d.all_vectorizable && d.same_intrinsic) = true →
      select_default_dot_impl d = .VEC) ∧
    ((d.all_dma && d.cblas_enabled) = false →
      (d.vec_enabled && d.all_vectorizable && d.same_intrinsic) = false →
      select_default_dot_impl d = .STD) := by
  refine ⟨?_, ?_, ?_, ?_, ?_, ?_, ?_, ?_, ?_, ?_⟩ <;>
    intros <;>
    simp_all [select_default_gemv_impl, select_default_gemv_core,
      select_default_sum_impl, select_default_dot_impl] <;>
    split_ifs <;> simp_all

/-- C3 amended witness: the ten chain clauses each exercised at a concrete
configuration. -/
theorem selector_priority_chains_witness :
    select_default_gemv_impl gemvAllOn 2000 2000 = .VEC ∧
    select_default_gemv_impl ⟨false, true, true, false, true, true⟩ 2000 2000 = .BLAS ∧
    select_default_gemv_impl ⟨false, false, true, false, true, true⟩ 2000 2000 = .CUBLAS ∧
    select_default_gemv_impl ⟨false, false, false, false, true, true⟩ 2000 2000 = .STD ∧
    select_default_sum_impl ⟨true, true, true, true, true, true⟩ true = .CUBLAS ∧
    select_default_sum_impl ⟨false, true, true, true, true, true⟩ true = .VEC ∧
    select_default_sum_impl ⟨false, true, false, true, true, false⟩ true = .STD ∧
    select_default_dot_impl ⟨true, true, true, true, true, true⟩ = .BLAS ∧
    select_default_dot_impl ⟨false, true, true, true, true, true⟩ = .VEC ∧
    select_default_dot_impl ⟨false, true, false, true, true, true⟩ = .STD :=
  ⟨(selector_priority_chains gemvAllOn 2000 2000 ⟨true, true, true, true, true, true⟩
      true ⟨true, true, true, true, true, true⟩).1 (by decide),
   (selector_priority_chains ⟨false, true, true, false, true, true⟩ 2000 2000
      ⟨true, true, true, true, true, true⟩ true
      ⟨true, true, true, true, true, true⟩).2.1 (by decide) (by decide),
   (selector_priority_chains ⟨false, false, true, false, true, true⟩ 2000 2000
      ⟨true, true, true, true, true, true⟩ true
      ⟨true, true, true, true, true, true⟩).2.2.1 (by decide) (by decide) (by decide),
   (selector_priority_chains ⟨false, false, false, false, true, true⟩ 2000 2000
      ⟨true, true, true, true, true, true⟩ true
      ⟨true, true, true, true, true, true⟩).2.2.2.1 (by decide) (by decide) (by decide),
   (selector_priority_chains gemvAllOn 2000 2000 ⟨true, true, true, true, true, true⟩
      true ⟨true, true, true, true, true, true⟩).2.2.2.2.1 (by decide),
   (selector_priority_chains gemvAllOn 2000 2000 ⟨false, true, true, true, true, true⟩
      true ⟨true, true, true, true, true, true⟩).2.2.2.2.2.1 (by decide) (by decide),
   (selector_priority_chains gemvAllOn 2000 2000 ⟨false, true, false, true, true, false⟩
      true ⟨true, true, true, true, true, true⟩).2.2.2.2.2.2.1 (by decide) (by decide),
   (selector_priority_chains gemvAllOn 2000 2000 ⟨true, true, true, true, true, true⟩
      true ⟨true, true, true, true, true, true⟩).2.2.2.2.2.2.2.1 (by decide),
   (selector_priority_chains gemvAllOn 2000 2000 ⟨true, true, true, true, true, true⟩
      true ⟨false, true, true, true, true, true⟩).2.2.2.2.2.2.2.2.1 (by decide) (by decide),
   (selector_priority_chains gemvAllOn 2000 2000 ⟨true, true, true, true, true, true⟩
      true ⟨false, true, false, true, true, true⟩).2.2.2.2.2.2.2.2.2 (by decide) (by decide)⟩

/-- The incompatibility conditions checked by `select_gemv_impl` for a
forced implementation, from `expr/gemv_expr.hpp`. -/
def gemv_forced_incompatible (cfg : GemvCfg) : GemmImpl → Bool
  | .CUBLAS => !cfg.cublas_enabled || !cfg.homo
  | .BLAS => !cfg.cblas_enabled || !cfg.homo
  | .VEC => !cfg.vec_enabled || !cfg.all_vectorizable || !cfg.homo
  | .STD => false

/-- The incompatibility conditions checked by `select_sum_impl` for a
forced implementation, from `impl/sum.hpp`. -/
def sum_forced_incompatible (cfg : SumCfg) : SumImpl → Bool
  | .VEC => !cfg.vec_enabled || !cfg.all_vectorizable
  | .CUBLAS => !cfg.cublas_enabled || !cfg.all_dma || !cfg.all_floating
  | .BLAS => !cfg.cblas_enabled || !cfg.all_dma || !cfg.all_floating
  | .STD => false

/-- An incompatibly forced gemv implementation is never what the default
selection produces. -/
theorem gemv_default_ne_incompatible (cfg : GemvCfg) (big : Bool) (i : GemmImpl)
    (h : gemv_forced_incompatible cfg i = true) :
    select_default_gemv_core cfg big ≠ i := by
  revert h
  revert cfg big i
  decide

/-- An incompatibly forced sum implementation is never what the default
selection produces. -/
theorem sum_default_ne_incompatible (cfg : SumCfg) (gpu : Bool) (j : SumImpl)
    (h : sum_forced_incompatible cfg j = true) :
    select_default_sum_impl cfg gpu ≠ j := by
  revert h
  revert cfg gpu j
  decide

/-- C4.  When the thread-local context forces an implementation that is
incompatible with the operands or whose backend is not enabled, the selector
emits the diagnostic and returns exactly the unforced default selection —
never the forced implementation. -/
theorem forced_override_fallback (g : GemvCfg) (i : GemmImpl) (n1 n2 : Nat)
    (s : SumCfg) (j : SumImpl) (gpu : Bool) :
    (gemv_forced_incompatible g i = true →
      select_gemv_impl g ⟨true, i⟩ n1 n2 = (select_default_gemv_impl g n1 n2, true) ∧
      (select_gemv_impl g ⟨true, i⟩ n1 n2).1 ≠ i) ∧
    (sum_forced_incompatible s j = true →
      select_sum_impl s ⟨true, j⟩ gpu = (select_default_sum_impl s gpu, true) ∧
      (select_sum_impl s ⟨true, j⟩ gpu).1 ≠ j) := by
  constructor
  · intro h
    have hsel : select_gemv_impl g ⟨true, i⟩ n1 n2 =
        (select_default_gemv_impl g n1 n2, true) := by
      cases i <;> simp_all [select_gemv_impl, gemv_forced_incompatible]
    refine ⟨hsel, ?_⟩
    rw [hsel]
    exact gemv_default_ne_incompatible g _ i h
  · intro h
    have hsel : select_sum_impl s ⟨true, j⟩ gpu =
        (select_default_sum_impl s gpu, true) := by
      cases j <;> simp_all [select_sum_impl, sum_forced_incompatible]
    refine ⟨hsel, ?_⟩
    rw [hsel]
    exact sum_default_ne_incompatible s gpu j h

/-- C4 witness: forcing BLAS for gemv with BLAS not linked, and forcing
CUBLAS for sum with CUBLAS not enabled, both fall back to the default with a
diagnostic. -/
theorem forced_override_fallback_witness :
    (select_gemv_impl ⟨true, false, true, true, true, true⟩ ⟨true, .BLAS⟩ 10 10 =
      (select_default_gemv_impl ⟨true, false, true, true, true, true⟩ 10 10, true) ∧
     (select_gemv_impl ⟨true, false, true, true, true, true⟩ ⟨true, .BLAS⟩ 10 10).1 ≠
      GemmImpl.BLAS) ∧
    (select_sum_impl ⟨false, true, true, true, true, true⟩ ⟨true, .CUBLAS⟩ true =
      (select_default_sum_impl ⟨false, true, true, true, true, true⟩ true, true) ∧
     (select_sum_impl ⟨false, true, true, true, true, true⟩ ⟨true, .CUBLAS⟩ true).1 ≠
      SumImpl.CUBLAS) :=
  ⟨(forced_override_fallback ⟨true, false, true, true, true, true⟩ .BLAS 10 10
      ⟨false, true, true, true, true, true⟩ .CUBLAS true).1 (by decide),
   (forced_override_fallback ⟨true, false, true, true, true, true⟩ .BLAS 10 10
      ⟨false, true, true, true, true, true⟩ .CUBLAS true).2 (by decide)⟩

/-- C9.  With no forced override in the thread-local context, the selectors
are pure functions of the operands' static traits, the backend flags and
(for sum) the GPU-residency bit: the result equals the default selection and
is unaffected by any residual `impl` value left in the context by earlier
forcing. -/
theorem selector_determinism (s : SumCfg) (j j2 : SumImpl) (gpu : Bool)
    (d : DotCfg) (k k2 : DotImpl) :
    select_sum_impl s ⟨false, j⟩ gpu = (select_default_sum_impl s gpu, false) ∧
    select_sum_impl s ⟨false, j⟩ gpu = select_sum_impl s ⟨false, j2⟩ gpu ∧
    select_dot_impl d ⟨false, k⟩ = (select_default_dot_impl d, false) ∧
    select_dot_impl d ⟨false, k⟩ = select_dot_impl d ⟨false, k2⟩ := by
  simp [select_sum_impl, select_dot_impl]

/-! ### Temporaries (`include/etl/temporary.hpp`) -/

/-- `has_direct_access<E>`: in the model only a value leaf exposes raw
memory; scalars and operator nodes are computed on demand. -/
def has_direct_access : Expr → Bool
  | .leaf _ => true
  | _ => false

/-- The size of an expression as reported by its traits: a leaf reports its
container's size, a binary node the size of its non-scalar side (a scalar
behaves as a generator and reports no size of its own). -/
def esize : Expr → Nat
  | .leaf d => d.length
  | .scal _ => 0
  | .unary _ e => esize e
  | .binary _ l r => if l.isScal then esize r else esize l

/-- `force_temporary`, translated from `temporary.hpp`: allocate a fresh
container of the expression's dimensions and assign the expression into it
(`mat = expr`). -/
def force_temporary (e : Expr) : Expr :=
  .leaf (evalInto e (esize e))

/-- `make_temporary`, translated from `temporary.hpp`: an expression with
direct access is forwarded unchanged; otherwise a temporary is forced. -/
def make_temporary (e : Expr) : Expr :=
  if has_direct_access e then e else force_temporary e

/-- Evaluating a materialized container reproduces its contents. -/
theorem evalInto_leaf (xs : List ℚ) : evalInto (.leaf xs) xs.length = xs := by
  apply List.ext_getElem
  · simp [evalInto]
  · intro i h1 h2
    simp [evalInto, eval, List.getD_eq_getElem?_getD, List.getElem?_eq_getElem h2]

/-- C10.  `make_temporary` returns an expression with direct memory access
unchanged (the very same expression, hence sharing its storage), and wraps
any other expression into a freshly materialized container whose element
values equal the evaluated expression's values. -/
theorem make_temporary_spec (e : Expr) :
    (has_direct_access e = true → make_temporary e = e) ∧
    (has_direct_access e = false →
      make_temporary e = .leaf (evalInto e (esize e)) ∧
      has_direct_access (make_temporary e) = true ∧
      evalInto (make_temporary e) (esize e) = evalInto e (esize e)) := by
  constructor
  · intro h
    simp [make_temporary, h]
  · intro h
    have hm : make_temporary e = .leaf (evalInto e (esize e)) := by
      simp [make_temporary, h, force_temporary]
    refine ⟨hm, by rw [hm]; rfl, ?_⟩
    rw [hm]
    have hlen : (evalInto e (esize e)).length = esize e := by
      simp [evalInto]
    calc evalInto (.leaf (evalInto e (esize e))) (esize e)
        = evalInto (.leaf (evalInto e (esize e))) (evalInto e (esize e)).length := by
          rw [hlen]
      _ = evalInto e (esize e) := evalInto_leaf _

/-- C10 witness: a leaf passes through `make_temporary` unchanged; a binary
expression is materialized into a container holding its evaluated values. -/
theorem make_temporary_spec_witness :
    make_temporary (.leaf [1, 2]) = .leaf [1, 2] ∧
    make_temporary (.binary .add (.leaf [1, 2]) (.leaf [10, 20])) =
      .leaf (evalInto (.binary .add (.leaf [1, 2]) (.leaf [10, 20])) 2) ∧
    evalInto (make_temporary (.binary .add (.leaf [1, 2]) (.leaf [10, 20]))) 2 =
      evalInto (.binary .add (.leaf [1, 2]) (.leaf [10, 20])) 2 :=
  ⟨(make_temporary_spec (.leaf [1, 2])).1 rfl,
   ((make_temporary_spec (.binary .add (.leaf [1, 2]) (.leaf [10, 20]))).2 rfl).1,
   ((make_temporary_spec (.binary .add (.leaf [1, 2]) (.leaf [10, 20]))).2 rfl).2.2⟩

/-! ### GPU/CPU coherence protocol of the kernels -/

/-- One side of a container's storage. -/
inductive Side where
  | cpu
  | gpu
deriving DecidableEq, Repr

/-- The opposite side. -/
def Side.other : Side → Side
  | .cpu => .gpu
  | .gpu => .cpu

/-- The containers touched by a two-operand kernel: operands `a`, `b` and
the destination `c`. -/
inductive CId where
  | opA
  | opB
  | dest
deriving DecidableEq, Repr

/-- The coherence-relevant operations a kernel performs, in program order:
`ensure` is `ensure_cpu_up_to_date` / `ensure_gpu_up_to_date` (or the legacy
`gpu_allocate_copy_if_necessary`), `ensureAlloc` is `ensure_gpu_allocated`
(or `gpu_allocate_if_necessary`), `readMem` / `writeMem` are the raw memory
accesses of the computation itself, `validate` / `invalidate` flip the
validity flags. -/
inductive CoherenceEv where
  | ensure (s : Side) (x : CId)
  | ensureAlloc (x : CId)
  | readMem (s : Side) (x : CId)
  | writeMem (s : Side) (x : CId)
  | validate (s : Side) (x : CId)
  | invalidate (s : Side) (x : CId)
deriving DecidableEq, Repr

/-- Update one validity flag. -/
def updValid (m : CId → Side → Bool) (x : CId) (s : Side) (v : Bool) :
    CId → Side → Bool :=
  fun y t => if y = x ∧ t = s then v else m y t

/-- How each event changes which sides are guaranteed valid: `ensure`,
`validate` and a completed `writeMem` make the side valid, `invalidate`
makes it invalid, reads and allocation change nothing. -/
def stepValid (m : CId → Side → Bool) : CoherenceEv → (CId → Side → Bool)
  | .ensure s x => updValid m x s true
  | .ensureAlloc _ => m
  | .readMem _ _ => m
  | .writeMem s x => updValid m x s true
  | .validate s x => updValid m x s true
  | .invalidate s x => updValid m x s false

/-- Every `readMem` in the trace happens on a side that is guaranteed valid
at that point (i.e. the kernel called the corresponding ensure first —
nothing is assumed valid on entry). -/
def reads_valid : (CId → Side → Bool) → List CoherenceEv → Bool
  | _, [] => true
  | m, ev :: rest =>
    (match ev with
     | .readMem s x => m x s
     | _ => true) && reads_valid (stepValid m ev) rest

/-- Every `writeMem` on one side of a container is eventually followed by an
invalidation of the other side. -/
def writes_invalidated : List CoherenceEv → Bool
  | [] => true
  | .writeMem s x :: rest =>
      rest.contains (.invalidate s.other x) && writes_invalidated rest
  | _ :: rest => writes_invalidated rest

/-- The coherence protocol of the spec: no side is read while not valid, and
after writing one side of a container the other side is invalidated. -/
def kernel_coherent (t : List CoherenceEv) : Bool :=
  reads_valid (fun _ _ => false) t && writes_invalidated t

/-- Coherence trace of `etl::impl::vec::gemm` (row-major overload),
translated from `impl/vec/gemm.hpp`: ensure both operands on CPU, run the
CPU kernel on raw memory, invalidate the destination's GPU side. -/
def vec_gemm_row_major_trace : List CoherenceEv :=
  [.ensure .cpu .opA, .ensure .cpu .opB,
   .readMem .cpu .opA, .readMem .cpu .opB, .writeMem .cpu .dest,
   .invalidate .gpu .dest]

/-- Coherence trace of `etl::impl::vec::gemm` (column-major overload),
translated from `impl/vec/gemm.hpp`. -/
def vec_gemm_col_major_trace : List CoherenceEv :=
  [.ensure .cpu .opA, .ensure .cpu .opB,
   .readMem .cpu .opA, .readMem .cpu .opB, .writeMem .cpu .dest,
   .invalidate .gpu .dest]

/-- Coherence trace of `etl::impl::cublas::batch_outer`, translated from
`impl/cublas/outer.hpp`: ensure both operands on GPU, allocate the
destination's GPU side, run the GPU kernel, validate GPU and invalidate CPU
on the destination. -/
def cublas_batch_outer_trace : List CoherenceEv :=
  [.ensure .gpu .opA, .ensure .gpu .opB, .ensureAlloc .dest,
   .readMem .gpu .opA, .readMem .gpu .opB, .writeMem .gpu .dest,
   .validate .gpu .dest, .invalidate .cpu .dest]

/-- Coherence trace of `etl::impl::cublas::transpose`, translated from
`impl/cublas/transpose.hpp`: the legacy kernel copies the operand to the GPU
(`a.direct()` + `gpu_allocate_copy_if_necessary`), allocates the
destination's GPU buffer (`gpu_allocate_if_necessary`), runs `geam` on the
GPU — and returns without validating the GPU side or invalidating the CPU
side of the destination. -/
def cublas_transpose_trace : List CoherenceEv :=
  [.ensure .gpu .opA, .ensureAlloc .dest,
   .readMem .gpu .opA, .writeMem .gpu .dest]

/-- C7.  The vec gemm kernels and the cublas batch_outer kernel obey the
coherence protocol (operands ensured before every read, destination's other
side invalidated after the write), but the cublas transpose kernel violates
it: it writes the GPU side of its destination and never invalidates the CPU
side, leaving a stale CPU copy marked valid. -/
theorem kernel_coherence_audit :
    kernel_coherent vec_gemm_row_major_trace = true ∧
    kernel_coherent vec_gemm_col_major_trace = true ∧
    kernel_coherent cublas_batch_outer_trace = true ∧
    kernel_coherent cublas_transpose_trace = false := by
  decide

/-! ### Transpose under aliasing (`include/etl/impl/transpose.hpp`) -/

/-- A dense 2-D matrix: dimensions plus row-major flattened contents. -/
structure Mat where
  rows : Nat
  cols : Nat
  data : List ℚ
deriving DecidableEq, Repr

/-- Element `(i, j)` of the matrix (row-major). -/
def Mat.entry (m : Mat) (i j : Nat) : ℚ :=
  m.data.getD (i * m.cols + j) 0

/-- The transposed contents: element `(i, j)` of the result is element
`(j, i)` of the input. -/
def transpose_values (a : Mat) : Mat :=
  { rows := a.cols, cols := a.rows,
    data := (List.range (a.cols * a.rows)).map fun k =>
      a.entry (k % a.rows) (k / a.rows) }

theorem transpose_values_entry (a : Mat) (i j : Nat)
    (hi : i < a.cols) (hj : j < a.rows) :
    (transpose_values a).entry i j = a.entry j i := by
  have hr : 0 < a.rows := Nat.lt_of_le_of_lt (Nat.zero_le _) hj
  have hidx : i * a.rows + j < a.cols * a.rows := by
    have h1 : i + 1 ≤ a.cols := hi
    calc i * a.rows + j < (i + 1) * a.rows := by rw [Nat.succ_mul]; omega
      _ ≤ a.cols * a.rows := Nat.mul_le_mul_right _ h1
  have hlen : i * a.rows + j <
      ((List.range (a.cols * a.rows)).map fun k =>
        a.entry (k % a.rows) (k / a.rows)).length := by
    simpa using hidx
  have hmap : (transpose_values a).data = (List.range (a.cols * a.rows)).map
      (fun k => a.entry (k % a.rows) (k / a.rows)) := rfl
  have hcols : (transpose_values a).cols = a.rows := rfl
  rw [Mat.entry, hcols, hmap, List.getD_eq_getElem?_getD,
    List.getElem?_eq_getElem hlen]
  simp only [List.getElem_map, List.getElem_range, Option.getD_some]
  have hmod : (i * a.rows + j) % a.rows = j := by
    simp [Nat.add_mod, Nat.mul_mod_left, Nat.mod_eq_of_lt hj]
  have hdiv : (i * a.rows + j) / a.rows = i := by
    have hcomm : i * a.rows + j = j + i * a.rows := by ring
    rw [hcomm, Nat.add_mul_div_right _ _ hr, Nat.div_eq_of_lt hj, Nat.zero_add]
  rw [hmod, hdiv]

/-- Modelled from the spec: the standard in-place transposition kernels
(`impl/std/transpose.hpp`, dispatched to by `detail::transpose::apply` but
not present under `src/`).  Per the spec's aliasing rule — operations that
are not element-order-independent "force a temporary copy of the operand
whenever `d` and any operand share memory" — the in-place kernel takes a
temporary copy of the shared buffer and writes the transposed values back,
so it never reads an element already overwritten.  The Bool records that a
temporary was made. -/
def inplace_transpose (c : Mat) : Mat × Bool :=
  let tmp := c
  (transpose_values tmp, true)

/-- `detail::transpose::apply`, translated from `impl/transpose.hpp`:
if the destination shares memory with the operand (equal `memory_start`),
dispatch to the in-place kernels (square or rectangular — both modelled by
`inplace_transpose`); otherwise transpose out of place directly from the
operand.  The Bool records whether a temporary copy was made. -/
def transpose_apply (a : Mat) (aliased : Bool) : Mat × Bool :=
  if aliased then inplace_transpose a else (transpose_values a, false)

/-- C8.  Whatever the aliasing situation, transposition produces the correct
transposed result: every element `(i, j)` of the output equals element
`(j, i)` of the original operand — in the aliased case because the in-place
kernel works from a temporary copy of the shared buffer (so no overwritten
element is ever read), in the non-aliased case directly. -/
theorem transpose_alias_safe (m : Mat) (aliased : Bool) (i j : Nat)
    (hi : i < m.cols) (hj : j < m.rows) :
    (transpose_apply m aliased).1.entry i j = m.entry j i ∧
    (aliased = true → (transpose_apply m aliased).2 = true) := by
  cases aliased <;>
    simp [transpose_apply, inplace_transpose, transpose_values_entry m i j hi hj]

/-- C8 witness: a 2×3 matrix, transposed aliased and non-aliased, at a
concrete index. -/
theorem transpose_alias_safe_witness :
    ((transpose_apply ⟨2, 3, [1, 2, 3, 4, 5, 6]⟩ true).1.entry 2 1 =
      Mat.entry ⟨2, 3, [1, 2, 3, 4, 5, 6]⟩ 1 2 ∧
     (true = true → (transpose_apply ⟨2, 3, [1, 2, 3, 4, 5, 6]⟩ true).2 = true)) ∧
    ((transpose_apply ⟨2, 3, [1, 2, 3, 4, 5, 6]⟩ false).1.entry 2 1 =
      Mat.entry ⟨2, 3, [1, 2, 3, 4, 5, 6]⟩ 1 2 ∧
     (false = true → (transpose_apply ⟨2, 3, [1, 2, 3, 4, 5, 6]⟩ false).2 = true)) :=
  ⟨transpose_alias_safe ⟨2, 3, [1, 2, 3, 4, 5, 6]⟩ true 2 1 (by decide) (by decide),
   transpose_alias_safe ⟨2, 3, [1, 2, 3, 4, 5, 6]⟩ false 2 1 (by decide) (by decide)⟩

end ETL
